import Mathlib

set_option maxRecDepth 8000

/-!  Shallow embedding of the Opus packet framing layer and the Ogg
encapsulation layer of the `opi` crate (src/packet.rs and src/ogg.rs),
together with theorems checking the crate's specification against it.

Bytes are modelled as `Nat` values (a real byte is below 256) and byte
buffers as `List Nat`.  `usize` arithmetic is `Nat` arithmetic; additions
of slice lengths and offsets cannot overflow for representable slices
(Rust slices are at most `isize::MAX` bytes), while the one subtraction
that can underflow on reachable inputs is modelled with the release
profile's two's-complement wrap made explicit.  A Rust `panic` (slice
index out of bounds) is a distinct outcome, separate from returned
errors. -/

/-- The packet-level error type of src/packet.rs (`MalformedPacketError`). -/
inductive MalformedPacketError
  | overlongFrame
  | unevenFrameLengths
  | frameOverflow
  | zeroFrames
  | overlongDuration
  deriving DecidableEq

/-- The container-level error type of src/ogg.rs (`OggOpusError`). -/
inductive OggOpusError
  | denialOfService
  | badPaging
  | badMagic
  | unsupportedVersion
  deriving DecidableEq

/-- Modelled from the spec: the crate-wide error type (src/error.rs is not among
the sources).  Section 7 of the spec adopts the taxonomy in which
`UnexpectedEof` is a first-class variant alongside the packet-level and
container-level families, and out-of-range `get_res` slice accesses surface as
`UnexpectedEof` ("buffer exhausted mid-parse"). -/
inductive Error
  | unexpectedEof
  | malformedPacket (e : MalformedPacketError)
  | oggOpus (e : OggOpusError)
  deriving DecidableEq

/-- Result of running a piece of the Rust code: a value, a returned typed
error, or an abort of the program (a slice-index panic). -/
inductive Outcome (α : Type)
  | ok (a : α)
  | error (e : Error)
  | panic
  deriving DecidableEq

def Outcome.isOk {α : Type} : Outcome α → Bool
  | .ok _ => true
  | _ => false

def Outcome.bind {α β : Type} : Outcome α → (α → Outcome β) → Outcome β
  | .ok a, f => f a
  | .error e, _ => .error e
  | .panic, _ => .panic

/-- Modelled from the spec: `SliceExt::get_res` over a range
(src/slice_ext.rs is not among the sources); a range that does not lie inside
the buffer yields `UnexpectedEof`. -/
def get_res_range (data : List Nat) (a b : Nat) : Outcome (List Nat) :=
  if a ≤ b ∧ b ≤ data.length then .ok ((data.take b).drop a) else .error .unexpectedEof

/-- Modelled from the spec: `SliceExt::get_res` for a range open at the right. -/
def get_res_from (data : List Nat) (a : Nat) : Outcome (List Nat) :=
  if a ≤ data.length then .ok (data.drop a) else .error .unexpectedEof

/-- Modelled from the spec: `SliceExt::get_res` for a single index. -/
def get_res_at (data : List Nat) (i : Nat) : Outcome Nat :=
  match data[i]? with
  | some v => .ok v
  | none => .error .unexpectedEof

/-- Modelled from the spec: `SliceExt::first_res`. -/
def first_res (data : List Nat) : Outcome Nat := get_res_at data 0

/-- Rust slice indexing `&data[a..]`: panics when `a` exceeds the length. -/
def slice_from (data : List Nat) (a : Nat) : Outcome (List Nat) :=
  if a ≤ data.length then .ok (data.drop a) else .panic

/-- Rust slice indexing `&data[a..b]`: panics when the range is out of bounds. -/
def slice_range (data : List Nat) (a b : Nat) : Outcome (List Nat) :=
  if a ≤ b ∧ b ≤ data.length then .ok ((data.take b).drop a) else .panic

/-- Two's-complement wrapping subtraction on `usize` (the release profile's
behaviour), faithful for operands below `2 ^ 64`. -/
def wsub (a b : Nat) : Nat := if b ≤ a then a - b else 2 ^ 64 - (b - a)

def le_u16 (b0 b1 : Nat) : Nat := b0 + 256 * b1

def le_u32 (b0 b1 b2 b3 : Nat) : Nat := b0 + 256 * b1 + 65536 * b2 + 16777216 * b3

def le_u16_list : List Nat → Nat
  | [b0, b1] => le_u16 b0 b1
  | _ => 0

def le_u32_list : List Nat → Nat
  | [b0, b1, b2, b3] => le_u32 b0 b1 b2 b3
  | _ => 0

/-- Reinterpret an unsigned 16-bit value as a signed one. -/
def to_i16 (n : Nat) : Int := if n < 32768 then (n : Int) else (n : Int) - 65536

def le_i16_list (l : List Nat) : Int := to_i16 (le_u16_list l)

/-- The codec of each frame (`Mode` in src/packet.rs). -/
inductive Mode
  | silk
  | hybrid
  | celt
  deriving DecidableEq

/-- The audio bandwidth (`Bandwidth` in src/packet.rs). -/
inductive Bandwidth
  | narrowband
  | mediumBand
  | wideband
  | superWideband
  | fullband
  deriving DecidableEq

/-- Frame durations (`FrameSize` in src/packet.rs). -/
inductive FrameSize
  | twoPointFive
  | five
  | ten
  | twenty
  | fourty
  | sixty
  deriving DecidableEq

def FrameSize.as_microseconds : FrameSize → Nat
  | .twoPointFive => 2500
  | .five => 5000
  | .ten => 10000
  | .twenty => 20000
  | .fourty => 40000
  | .sixty => 60000

/-- RFC 6716 Table 2 mode lookup (`impl From ConfigNumber for Mode`). -/
def mode_of (c : Nat) : Mode :=
  if c ≤ 11 then .silk else if c ≤ 15 then .hybrid else .celt

/-- RFC 6716 Table 2 bandwidth lookup (`impl From ConfigNumber for Bandwidth`). -/
def bandwidth_of (c : Nat) : Bandwidth :=
  if c ≤ 3 ∨ (16 ≤ c ∧ c ≤ 19) then .narrowband
  else if 4 ≤ c ∧ c ≤ 7 then .mediumBand
  else if (8 ≤ c ∧ c ≤ 11) ∨ (20 ≤ c ∧ c ≤ 23) then .wideband
  else if c = 12 ∨ c = 13 ∨ (24 ≤ c ∧ c ≤ 27) then .superWideband
  else .fullband

/-- RFC 6716 Table 2 frame-size lookup (`impl From ConfigNumber for FrameSize`). -/
def frame_size_of (c : Nat) : FrameSize :=
  if c = 16 ∨ c = 20 ∨ c = 24 ∨ c = 28 then .twoPointFive
  else if c = 17 ∨ c = 21 ∨ c = 25 ∨ c = 29 then .five
  else if c = 0 ∨ c = 4 ∨ c = 8 ∨ c = 12 ∨ c = 14 ∨ c = 18 ∨ c = 22 ∨ c = 26 ∨ c = 30 then .ten
  else if c = 1 ∨ c = 5 ∨ c = 9 ∨ c = 13 ∨ c = 15 ∨ c = 19 ∨ c = 23 ∨ c = 27 ∨ c = 31 then
    .twenty
  else if c = 2 ∨ c = 6 ∨ c = 10 then .fourty
  else .sixty

/-- A packet configuration (`Config` in src/packet.rs). -/
structure Config where
  mode : Mode
  bandwidth : Bandwidth
  frame_size : FrameSize
  deriving DecidableEq

def config_of (c : Nat) : Config :=
  { mode := mode_of c, bandwidth := bandwidth_of c, frame_size := frame_size_of c }

/-- The `config` field of the TOC byte: `(b &&& 0b1111_1000) >>> 3`. -/
def toc_config (b : Nat) : Nat := b / 8 % 32

/-- The `s` (stereo) field of the TOC byte: `b &&& 0b0000_0100 ≠ 0`. -/
def toc_stereo (b : Nat) : Bool := b / 4 % 2 == 1

/-- The `c` (frame layout code) field of the TOC byte: `b &&& 0b0000_0011`. -/
def toc_code (b : Nat) : Nat := b % 4

/-- The `v` (VBR) field of the frame count byte: `b &&& 0b1000_0000 ≠ 0`. -/
def fc_vbr (b : Nat) : Bool := b / 128 % 2 == 1

/-- The `p` (padding) field of the frame count byte: `b &&& 0b0100_0000 ≠ 0`. -/
def fc_padding (b : Nat) : Bool := b / 64 % 2 == 1

/-- The `M` (frame count) field of the frame count byte: `b &&& 0b0011_1111`. -/
def fc_count (b : Nat) : Nat := b % 64

/-- An Opus codec packet (`Packet` in src/packet.rs): decoder configuration,
the stereo flag, and the frame slices. -/
structure Packet where
  config : Config
  stereo : Bool
  frames : List (List Nat)
  deriving DecidableEq

namespace Packet

/-- `Packet::length_code` (src/packet.rs, RFC 6716 § 3.2.1): the frame length
and the number of bytes the length code occupies. -/
def length_code (data : List Nat) : Outcome (Nat × Nat) :=
  match data with
  | [] => .error .unexpectedEof
  | first :: rest =>
    if first ≤ 251 then .ok (first, 1)
    else
      match rest with
      | [] => .error .unexpectedEof
      | second :: _ => .ok (second * 4 + first, 2)

/-- `Packet::framing` (src/packet.rs): the frame length, the offset to add,
and the data to continue from.  The 1275-byte cap is enforced only on the
implicit branch, exactly as in the source. -/
def framing (data : List Nat) (sd : Bool) (implicit : Nat → Option Nat) :
    Outcome (Nat × Nat × List Nat) :=
  if sd then
    Outcome.bind (length_code data) fun lc =>
      Outcome.bind (get_res_from data (lc.2 + lc.1)) fun rest =>
        .ok (lc.1, lc.2, rest)
  else
    match implicit data.length with
    | none => .error (.malformedPacket .unevenFrameLengths)
    | some len =>
      if len ≤ 1275 then .ok (len, 0, data) else .error (.malformedPacket .overlongFrame)

/-- `Packet::padding` (src/packet.rs): total padding length from the
continuation bytes, and the data following the padding size bytes. -/
def padding : List Nat → Outcome (Nat × List Nat)
  | [] => .error .unexpectedEof
  | b :: rest =>
    if b = 255 then
      Outcome.bind (padding rest) fun pr => .ok (pr.1 + 254, pr.2)
    else .ok (b, rest)

/-- `Packet::decode_code_0` (src/packet.rs). -/
def decode_code_0 (config : Config) (stereo sd : Bool) (data : List Nat) :
    Outcome (Packet × List Nat) :=
  Outcome.bind (framing data sd some) fun fr =>
    Outcome.bind (get_res_range data fr.2.1 (fr.2.1 + fr.1)) fun f =>
      .ok ({ config := config, stereo := stereo, frames := [f] }, fr.2.2)

/-- `Packet::decode_code_1` (src/packet.rs). -/
def decode_code_1 (config : Config) (stereo sd : Bool) (data : List Nat) :
    Outcome (Packet × List Nat) :=
  Outcome.bind (framing data sd fun len => if len % 2 = 0 then some (len / 2) else none)
    fun fr =>
      Outcome.bind (slice_from data fr.2.1) fun d =>
        Outcome.bind (get_res_range d 0 fr.1) fun f1 =>
          Outcome.bind (get_res_range d fr.1 (fr.1 * 2)) fun f2 =>
            .ok ({ config := config, stereo := stereo, frames := [f1, f2] }, fr.2.2)

/-- `Packet::decode_code_2` (src/packet.rs).  The implicit closure
`len - len1` is the release profile's wrapping subtraction, and the final
`&more_data[end..]` is a plain (panicking) slice index, as in the source. -/
def decode_code_2 (config : Config) (stereo sd : Bool) (data : List Nat) :
    Outcome (Packet × List Nat) :=
  Outcome.bind (length_code data) fun lc1 =>
    Outcome.bind (slice_from data lc1.2) fun tail1 =>
      Outcome.bind (framing tail1 sd fun len => some (wsub len lc1.1)) fun fr =>
        Outcome.bind (slice_from data (lc1.2 + fr.2.1)) fun d =>
          if lc1.1 ≤ d.length then
            Outcome.bind (get_res_range d 0 lc1.1) fun f1 =>
              Outcome.bind (get_res_range d lc1.1 (lc1.1 + fr.1)) fun f2 =>
                Outcome.bind (slice_from fr.2.2 (lc1.1 + fr.1)) fun rem =>
                  .ok ({ config := config, stereo := stereo, frames := [f1, f2] }, rem)
          else if sd then .error .unexpectedEof
          else .error (.malformedPacket .frameOverflow)

/-- The length-gathering pass of `Packet::decode_code_3_vbr` (the `scan` over
`0..frame_count`): returns the explicit frame lengths (the last frame's
length is inferred when framing is implicit) and the final read offset.
The fuel argument counts the iterations still to run; the condition
`sd ∨ 0 < k` is `self_delimiting || i < frame_count - 1` of the source. -/
def vbr_lens (data : List Nat) (sd : Bool) (pad : Nat) :
    Nat → Nat → Nat → Outcome (List Nat × Nat)
  | 0, offset, _ => .ok ([], offset)
  | k + 1, offset, total_len =>
    if sd = true ∨ 0 < k then
      Outcome.bind (slice_from data offset) fun tail =>
        Outcome.bind (length_code tail) fun lc =>
          Outcome.bind (vbr_lens data sd pad k (offset + lc.2) (total_len + lc.1)) fun lo =>
            .ok (lc.1 :: lo.1, lo.2)
    else
      .ok ([wsub (wsub (wsub data.length total_len) offset) pad], offset)

/-- The slicing pass of `Packet::decode_code_3_vbr` (the `map` over the
gathered lengths): cuts one slice per length, threading the offset. -/
def take_frames (data : List Nat) : List Nat → Nat → Outcome (List (List Nat) × Nat)
  | [], offset => .ok ([], offset)
  | len :: rest, offset =>
    Outcome.bind (get_res_range data offset (offset + len)) fun f =>
      Outcome.bind (take_frames data rest (offset + len)) fun fo =>
        .ok (f :: fo.1, fo.2)

/-- `Packet::decode_code_3_vbr` (src/packet.rs). -/
def decode_code_3_vbr (config : Config) (stereo sd : Bool) (data : List Nat)
    (count pad : Nat) : Outcome (Packet × List Nat) :=
  Outcome.bind (vbr_lens data sd pad count 0 0) fun lo =>
    Outcome.bind (take_frames data lo.1 lo.2) fun fo =>
      Outcome.bind (get_res_from data (fo.2 + pad)) fun rem =>
        .ok ({ config := config, stereo := stereo, frames := fo.1 }, rem)

/-- The frame-slicing loop of `Packet::decode_code_3_cbr` (the `map` over
`0..frame_count`); `i` is the next frame index and the fuel counts the
frames still to cut. -/
def cbr_frames (data : List Nat) (len : Nat) : Nat → Nat → Outcome (List (List Nat))
  | 0, _ => .ok []
  | k + 1, i =>
    Outcome.bind (get_res_range data (len * i) (len * (i + 1))) fun f =>
      Outcome.bind (cbr_frames data len k (i + 1)) fun fs =>
        .ok (f :: fs)

/-- `Packet::decode_code_3_cbr` (src/packet.rs).  In the implicit case the
divisibility test uses the full buffer length, padding included, exactly as
the source does. -/
def decode_code_3_cbr (config : Config) (stereo sd : Bool) (data : List Nat)
    (count pad : Nat) : Outcome (Packet × List Nat) :=
  Outcome.bind
    (if sd = true then length_code data
     else if data.length % count = 0 then .ok (data.length / count, 0)
     else .error (.malformedPacket .unevenFrameLengths)) fun lc =>
    Outcome.bind (slice_from data lc.2) fun d =>
      Outcome.bind (cbr_frames d lc.1 count 0) fun frames =>
        Outcome.bind (get_res_from d (lc.1 * count + pad)) fun rem =>
          .ok ({ config := config, stereo := stereo, frames := frames }, rem)

/-- `Packet::decode_code_3` (src/packet.rs): reads the frame count byte,
performs the R5 exclusions, reads the padding length, and dispatches to the
VBR or CBR body. -/
def decode_code_3 (config : Config) (stereo sd : Bool) :
    List Nat → Outcome (Packet × List Nat)
  | [] => .error .unexpectedEof
  | fcb :: rest =>
    if fc_count fcb = 0 then .error (.malformedPacket .zeroFrames)
    else if fc_count fcb * config.frame_size.as_microseconds > 120000 then
      .error (.malformedPacket .overlongDuration)
    else
      Outcome.bind (if fc_padding fcb then padding rest else .ok (0, rest)) fun pd =>
        if fc_vbr fcb then decode_code_3_vbr config stereo sd pd.2 (fc_count fcb) pd.1
        else decode_code_3_cbr config stereo sd pd.2 (fc_count fcb) pd.1

/-- `Packet::new_with_framing` (src/packet.rs): reads the TOC byte and
dispatches on the frame layout code. -/
def new_with_framing : List Nat → Bool → Outcome (Packet × List Nat)
  | [], _ => .error .unexpectedEof
  | toc :: rest, sd =>
    if toc_code toc = 0 then decode_code_0 (config_of (toc_config toc)) (toc_stereo toc) sd rest
    else if toc_code toc = 1 then
      decode_code_1 (config_of (toc_config toc)) (toc_stereo toc) sd rest
    else if toc_code toc = 2 then
      decode_code_2 (config_of (toc_config toc)) (toc_stereo toc) sd rest
    else decode_code_3 (config_of (toc_config toc)) (toc_stereo toc) sd rest

/-- `Packet::new` (src/packet.rs): internal framing, remainder discarded. -/
def new (data : List Nat) : Outcome Packet :=
  match new_with_framing data false with
  | .ok pr => .ok pr.1
  | .error e => .error e
  | .panic => .panic

end Packet

/-- The 8-byte magic of the Identification Header, `"OpusHead"`. -/
def magic_head : List Nat := [79, 112, 117, 115, 72, 101, 97, 100]

/-- The 8-byte magic of the Comment Header, `"OpusTags"`. -/
def magic_tags : List Nat := [79, 112, 117, 115, 84, 97, 103, 115]

/-- Modelled from the spec: the output channel configuration (src/channel.rs is
not among the sources).  The spec scopes channel-mapping-table semantics out
beyond what is needed to size the ID header, so the constructor records its
raw inputs and always succeeds. -/
structure ChannelMapping where
  channel_count : Nat
  mapping_family : Nat
  table : List Nat
  deriving DecidableEq

/-- Modelled from the spec: `ChannelMapping::new` — see `ChannelMapping`. -/
def channel_mapping_new (count family : Nat) (table : List Nat) : Outcome ChannelMapping :=
  .ok { channel_count := count, mapping_family := family, table := table }

/-- The Identification Header of an Ogg Opus stream (`IdHeader` in src/ogg.rs).
The `vendor`-style strings are not involved here; `sample_rate` is `none`
exactly when the stored 32-bit value is zero (`Option NonZeroU32`). -/
structure IdHeader where
  version : Nat
  channels : ChannelMapping
  pre_skip : Nat
  sample_rate : Option Nat
  output_gain : Int
  deriving DecidableEq

namespace IdHeader

/-- `IdHeader::new` (src/ogg.rs): magic check, major-version check, then the
field reads at the byte offsets of the source — `pre_skip` from bytes 10-11,
`sample_rate` from bytes 12-15, `output_gain` from bytes 15-16 (the source's
`get_res(15..=16)`), the channel fields from bytes 9, 18 and 19 onward. -/
def new (data : List Nat) : Outcome IdHeader :=
  Outcome.bind (get_res_range data 0 8) fun m =>
    if m = magic_head then
      Outcome.bind (get_res_at data 8) fun version =>
        if version / 16 % 16 = 0 then
          Outcome.bind (get_res_at data 9) fun b9 =>
            Outcome.bind (get_res_at data 18) fun b18 =>
              Outcome.bind (get_res_from data 19) fun tbl =>
                Outcome.bind (channel_mapping_new b9 b18 tbl) fun ch =>
                  Outcome.bind (get_res_range data 10 12) fun ps =>
                    Outcome.bind (get_res_range data 12 16) fun sr =>
                      Outcome.bind (get_res_range data 15 17) fun og =>
                        .ok { version := version
                              channels := ch
                              pre_skip := le_u16_list ps
                              sample_rate :=
                                if le_u32_list sr = 0 then none else some (le_u32_list sr)
                              output_gain := le_i16_list og }
        else .error (.oggOpus .unsupportedVersion)
    else .error (.oggOpus .badMagic)

end IdHeader

/-- Modelled from the spec: the Identification Header layout sentence — after
the 8-byte magic the multi-byte little-endian fields are laid out with
`output_gain` occupying exactly the two bytes immediately after the 4-byte
`sample_rate` field and no two fields overlapping.  With `sample_rate` read
from bytes 12-15 as the code does, that places `output_gain` at bytes 16-17. -/
def id_header_spec_output_gain (data : List Nat) : Option Int :=
  match (data.take 18).drop 16 with
  | [b0, b1] => if 18 ≤ data.length then some (le_i16_list [b0, b1]) else none
  | _ => none

/-- The `output_gain` field of a successfully parsed header, `none` otherwise. -/
def output_gain_of (o : Outcome IdHeader) : Option Int :=
  match o with
  | .ok h => some h.output_gain
  | _ => none

/-- Rust `slice.get(a..b)` on a byte slice: `none` when the range is not inside
the buffer. -/
def slice_get (l : List Nat) (a b : Nat) : Option (List Nat) :=
  if a ≤ b ∧ b ≤ l.length then some ((l.take b).drop a) else none

/-- Whether `b` is a UTF-8 continuation byte (`0x80..=0xBF`). -/
def utf8_cont (b : Nat) : Bool := 128 ≤ b && b ≤ 191

/-- Validity of a byte sequence as UTF-8, exactly as Rust's `str::from_utf8`
accepts it: no overlong forms, no surrogates, nothing above `U+10FFFF`. -/
def valid_utf8 : List Nat → Bool
  | [] => true
  | b :: rest =>
    if b ≤ 127 then valid_utf8 rest
    else if 194 ≤ b && b ≤ 223 then
      match rest with
      | c1 :: r => utf8_cont c1 && valid_utf8 r
      | [] => false
    else if b = 224 then
      match rest with
      | c1 :: c2 :: r => (160 ≤ c1 && c1 ≤ 191) && utf8_cont c2 && valid_utf8 r
      | _ => false
    else if 225 ≤ b && b ≤ 236 then
      match rest with
      | c1 :: c2 :: r => utf8_cont c1 && utf8_cont c2 && valid_utf8 r
      | _ => false
    else if b = 237 then
      match rest with
      | c1 :: c2 :: r => (128 ≤ c1 && c1 ≤ 159) && utf8_cont c2 && valid_utf8 r
      | _ => false
    else if 238 ≤ b && b ≤ 239 then
      match rest with
      | c1 :: c2 :: r => utf8_cont c1 && utf8_cont c2 && valid_utf8 r
      | _ => false
    else if b = 240 then
      match rest with
      | c1 :: c2 :: c3 :: r =>
        (144 ≤ c1 && c1 ≤ 191) && utf8_cont c2 && utf8_cont c3 && valid_utf8 r
      | _ => false
    else if 241 ≤ b && b ≤ 243 then
      match rest with
      | c1 :: c2 :: c3 :: r => utf8_cont c1 && utf8_cont c2 && utf8_cont c3 && valid_utf8 r
      | _ => false
    else if b = 244 then
      match rest with
      | c1 :: c2 :: c3 :: r =>
        (128 ≤ c1 && c1 ≤ 143) && utf8_cont c2 && utf8_cont c3 && valid_utf8 r
      | _ => false
    else false

/-- The byte index of the first `'='` (0x3D) in a buffer, if any; on valid
UTF-8 this coincides with Rust's `str::find('=')`, since an ASCII byte never
occurs inside a multi-byte sequence. -/
def find_eq : List Nat → Option Nat
  | [] => none
  | b :: rest => if b = 61 then some 0 else Option.map (· + 1) (find_eq rest)

/-- The body of the comment parse in `Comments::next` (src/ogg.rs):
`from_utf8(..).ok()?`, then `split_at(cmt.find('=')?)` and dropping the
`'='` from the value half.  Yields the `(name, value)` byte strings. -/
def parse_comment (p : List Nat) : Option (List Nat × List Nat) :=
  if valid_utf8 p then
    match find_eq p with
    | some i => some (p.take i, p.drop (i + 1))
    | none => none
  else none

/-- The user-comment iterator state (`Comments` in src/ogg.rs). -/
structure Comments where
  comments : List Nat
  comments_num : Nat
  comments_read : Nat
  pos : Nat
  deriving DecidableEq

/-- `Comments::next` (src/ogg.rs): one iterator step, returning the parsed
pair (or `none`) together with the updated state.  The cursor and the read
counter advance as soon as the length prefix has been read, before the
payload is interpreted, exactly as in the source. -/
def Comments.next (s : Comments) : Option (List Nat × List Nat) × Comments :=
  if s.pos < s.comments.length ∧ s.comments_read < s.comments_num then
    match slice_get s.comments s.pos (s.pos + 4) with
    | none => (none, s)
    | some lb =>
      let s' : Comments :=
        { s with pos := s.pos + 4 + le_u32_list lb, comments_read := s.comments_read + 1 }
      match slice_get s.comments (s.pos + 4) (s.pos + 4 + le_u32_list lb) with
      | none => (none, s')
      | some cb =>
        match parse_comment cb with
        | none => (none, s')
        | some kv => (some kv, s')
  else (none, s)

/-- The Comment Header (`CommentHeader` in src/ogg.rs).  The vendor string is
kept as its raw bytes: `String::from_utf8_lossy` never fails and no claim
inspects the converted text. -/
structure CommentHeader where
  comments : List Nat
  comments_num : Nat
  vendor : List Nat
  deriving DecidableEq

namespace CommentHeader

/-- `CommentHeader::new` (src/ogg.rs): the denial-of-service cap, the magic
check, the vendor read, the comment count read, and the retention slice —
`&data[comments_start + 4..COMMENTS_IGNORE_LEN]` is a plain (panicking)
slice index, as in the source. -/
def new (data : List Nat) : Outcome CommentHeader :=
  if data.length > 125829120 then .error (.oggOpus .denialOfService)
  else
    Outcome.bind (get_res_range data 0 8) fun m =>
      if m = magic_tags then
        Outcome.bind (get_res_range data 8 12) fun vl =>
          Outcome.bind (get_res_range data 12 (12 + le_u32_list vl)) fun vendor =>
            Outcome.bind
              (get_res_range data (12 + le_u32_list vl) (12 + le_u32_list vl + 4)) fun nb =>
              Outcome.bind
                (if data.length ≤ 61440 then slice_from data (12 + le_u32_list vl + 4)
                 else slice_range data (12 + le_u32_list vl + 4) 61440) fun cmts =>
                .ok { comments := cmts, comments_num := le_u32_list nb, vendor := vendor }
      else .error (.oggOpus .badMagic)

/-- `CommentHeader::comments` (src/ogg.rs): a fresh iterator over the retained
comment bytes. -/
def user_comments (ch : CommentHeader) : Comments :=
  { comments := ch.comments, comments_num := ch.comments_num, comments_read := 0, pos := 0 }

end CommentHeader

/-- One packet as delivered by the Ogg container layer: its payload and the
paging flags the demuxer exposes. -/
structure OggPacket where
  data : List Nat
  first_in_stream : Bool
  first_in_page : Bool
  last_in_page : Bool
  deriving DecidableEq

namespace OggOpusReader

/-- `OggOpusReader::new` (src/ogg.rs lines 266-300), given the first two
packets the Ogg layer yields.  The first page-alignment test reads the
Identification packet's flags; the second page-alignment test again reads
`id_packet`'s flags — not the Comment packet's — exactly as the source
does. -/
def new (id_packet comments_packet : OggPacket) : Outcome (IdHeader × CommentHeader) :=
  if id_packet.first_in_stream && id_packet.first_in_page && id_packet.last_in_page then
    Outcome.bind (IdHeader.new id_packet.data) fun idh =>
      if id_packet.first_in_page && id_packet.last_in_page then
        Outcome.bind (CommentHeader.new comments_packet.data) fun ch => .ok (idh, ch)
      else .error (.oggOpus .badPaging)
  else .error (.oggOpus .badPaging)

end OggOpusReader

/-- Little-endian 4-byte encoding of a 32-bit value. -/
def le4 (n : Nat) : List Nat := [n % 256, n / 256 % 256, n / 65536 % 256, n / 16777216 % 256]

/-- The bytes of the well-formed comment `"TITLE=Song"`. -/
def title_song : List Nat := [84, 73, 84, 76, 69, 61, 83, 111, 110, 103]

/-- A two-entry comment region: a length-prefixed first entry `p1` followed by
the length-prefixed well-formed comment `"TITLE=Song"`. -/
def c9_buf (p1 : List Nat) : List Nat :=
  le4 p1.length ++ p1 ++ ([10, 0, 0, 0] ++ title_song)

/-- A well-formed 19-byte Identification Header packet body: magic, version 1
(major 0), one channel, zero pre-skip, zero sample rate, zero gain, mapping
family 0. -/
def c1_id_data : List Nat := magic_head ++ [1, 1, 0, 0, 0, 0, 0, 0, 0, 0, 0]

/-- A well-formed 16-byte Comment Header packet body: magic, empty vendor
string, zero comments. -/
def c1_comment_data : List Nat := magic_tags ++ [0, 0, 0, 0, 0, 0, 0, 0]

/-- A correctly paged first (Identification Header) packet. -/
def c1_id_packet : OggPacket :=
  { data := c1_id_data, first_in_stream := true, first_in_page := true, last_in_page := true }

/-- A second (Comment Header) packet that is NOT the first packet of its page:
by the spec, opening the stream must fail with `BadPaging`. -/
def c1_bad_comment_packet : OggPacket :=
  { data := c1_comment_data, first_in_stream := false, first_in_page := false,
    last_in_page := true }

/-- A 19-byte Identification Header whose byte 15 (the last `sample_rate`
byte) is 1, byte 16 is 2 and byte 17 is 3, so the gain read from bytes 15-16
(513) differs from the gain at bytes 16-17 (770). -/
def c4_data : List Nat := magic_head ++ [1, 1, 0, 0, 0, 0, 0, 1, 2, 3, 0]

theorem Outcome.bind_eq_ok {α β : Type} {x : Outcome α} {f : α → Outcome β} {b : β} :
    x.bind f = .ok b ↔ ∃ a, x = .ok a ∧ f a = .ok b := by
  cases x <;> simp [Outcome.bind]

/-- C1: the spec demands that a stream whose Comment Header packet is not alone
on its Ogg page fail to open with `BadPaging`, decided by the Comment packet's
own paging.  The source (src/ogg.rs line 284) re-tests `id_packet`'s paging
flags instead, so a stream whose second packet is not first-in-page opens
successfully: the code violates the claim. -/
theorem c1_comment_paging_not_checked :
    c1_bad_comment_packet.first_in_page = false ∧
    (OggOpusReader.new c1_id_packet c1_bad_comment_packet).isOk = true ∧
    OggOpusReader.new c1_id_packet c1_bad_comment_packet ≠
      .error (.oggOpus .badPaging) := by
  refine ⟨rfl, by decide, by decide⟩

/-- C2: the claim says packet decoding never panics for any input.  The
source's `&more_data[end..]` (src/packet.rs line 563) is a plain slice index;
on the well-formed self-delimited code-2 packet `[0x02, 1, 1, 0xAA, 0xBB]`
it is evaluated with `end = 2` on a 1-byte slice and the program panics. -/
theorem c2_code2_self_delimited_panics :
    Packet.new_with_framing [2, 1, 1, 170, 187] true = .panic := by decide

/-- C4: the claim places `output_gain` in the two bytes immediately after the
4-byte `sample_rate` field (bytes 16-17), with no two fields overlapping.
The source reads `get_res(15..=16)` (src/ogg.rs line 90), overlapping the
last `sample_rate` byte: on `c4_data` the parsed gain is 513 while the
spec-mandated bytes 16-17 hold 770. -/
theorem c4_output_gain_read_from_wrong_bytes :
    output_gain_of (IdHeader.new c4_data) = some 513 ∧
    id_header_spec_output_gain c4_data = some 770 := by decide

/-- C5: the claim says a non-self-delimited code-2 packet whose first frame's
declared length exceeds the available buffer fails with `FrameOverflow`.  In
the source the implicit closure `|len| Some(len - len1)` (src/packet.rs
line 552) wraps, so `Packet::framing` reports `OverlongFrame` first and the
`FrameOverflow` branch is unreachable; the self-delimited half of the claim
(`UnexpectedEof`) does hold. -/
theorem c5_frame_overflow_branch_dead :
    Packet.new_with_framing [2, 5, 170, 187, 204] false =
      .error (.malformedPacket .overlongFrame) ∧
    Packet.new_with_framing [2, 5, 0, 187, 204] true = .error .unexpectedEof := by decide

/-- C7: the claim says every synthetic packet, including a code-3 CBR packet
with padding, round-trips through `Packet::new`.  The CBR divisibility test
(src/packet.rs line 662) uses the full buffer length with the padding bytes
still included, so the synthetic CBR packet `[0x03, 0x42, 1, 0xAA, 0xBB, 0]`
(two 1-byte frames plus one padding byte) fails with `UnevenFrameLengths`
instead of decoding to frames `[0xAA]`, `[0xBB]`; without padding the same
frames do round-trip. -/
theorem c7_cbr_padding_breaks_roundtrip :
    Packet.new [3, 66, 1, 170, 187, 0] = .error (.malformedPacket .unevenFrameLengths) ∧
    Packet.new [3, 2, 170, 187] =
      .ok { config := config_of 0, stereo := false, frames := [[170], [187]] } := by decide

/-- C6: for a code-3 packet a zero frame count always yields `ZeroFrames` and
a frame count whose total duration exceeds 120 ms always yields
`OverlongDuration`, whatever follows the frame count byte — in particular
even when the padding flag is set and no padding size byte exists, showing
both checks happen before any padding byte is read. -/
theorem c6_r5_checks_precede_padding (toc fcb : Nat) (rest : List Nat) (sd : Bool)
    (h : toc_code toc = 3) :
    (fc_count fcb = 0 →
      Packet.new_with_framing (toc :: fcb :: rest) sd =
        .error (.malformedPacket .zeroFrames)) ∧
    (fc_count fcb ≠ 0 →
      fc_count fcb * (config_of (toc_config toc)).frame_size.as_microseconds > 120000 →
      Packet.new_with_framing (toc :: fcb :: rest) sd =
        .error (.malformedPacket .overlongDuration)) := by
  constructor
  · intro h0
    simp [Packet.new_with_framing, h, Packet.decode_code_3, h0]
  · intro h0 h1
    simp [Packet.new_with_framing, h, Packet.decode_code_3, h0, h1]

/-- Witness for C6: the zero-count packet `[0x03, 0x40]` (padding flag set,
nothing after the frame count byte) and the overlong packet `[0x1B, 0x43]`
(60 ms frames, count 3, padding flag set, nothing further). -/
theorem c6_witness :
    toc_code 3 = 3 ∧ fc_count 64 = 0 ∧ toc_code 27 = 3 ∧ fc_count 67 ≠ 0 ∧
    fc_count 67 * (config_of (toc_config 27)).frame_size.as_microseconds > 120000 ∧
    Packet.new_with_framing [3, 64] false = .error (.malformedPacket .zeroFrames) ∧
    Packet.new_with_framing [27, 67] false =
      .error (.malformedPacket .overlongDuration) :=
  ⟨by decide, by decide, by decide, by decide, by decide,
    (c6_r5_checks_precede_padding 3 64 [] false (by decide)).1 (by decide),
    (c6_r5_checks_precede_padding 27 67 [] false (by decide)).2 (by decide) (by decide)⟩

/-- C8: a run of `n` bytes valued 255 followed by a terminal byte `k < 255`
decodes to padding length `254 * n + k`, resuming right after those `n + 1`
bytes, and a buffer of only 255-valued bytes fails with `UnexpectedEof`. -/
theorem c8_padding_continuation (n k : Nat) (rest : List Nat) (h : k < 255) :
    Packet.padding (List.replicate n 255 ++ k :: rest) = .ok (254 * n + k, rest) ∧
    Packet.padding (List.replicate n 255) = .error .unexpectedEof := by
  induction n with
  | zero =>
    have hk : k ≠ 255 := by omega
    constructor
    · simp [Packet.padding, hk]
    · simp [Packet.padding]
  | succ m ih =>
    obtain ⟨ih1, ih2⟩ := ih
    constructor
    · rw [List.replicate_succ, List.cons_append]
      simp [Packet.padding, ih1, Outcome.bind]
      try omega
    · rw [List.replicate_succ]
      simp [Packet.padding, ih2, Outcome.bind]

/-- Witness for C8: two 255-bytes then 7, trailing `[9]`. -/
theorem c8_witness :
    7 < 255 ∧
    (Packet.padding (List.replicate 2 255 ++ 7 :: [9]) = .ok (254 * 2 + 7, [9]) ∧
     Packet.padding (List.replicate 2 255) = .error .unexpectedEof) :=
  ⟨by decide, c8_padding_continuation 2 7 [9] (by decide)⟩

theorem vbr_lens_length (data : List Nat) (sd : Bool) (pad : Nat) :
    ∀ k off tl lens off',
      Packet.vbr_lens data sd pad k off tl = .ok (lens, off') → lens.length = k := by
  intro k
  induction k with
  | zero =>
    intro off tl lens off' h
    unfold Packet.vbr_lens at h
    injection h with h'
    rw [show lens = ([] : List Nat) from (congrArg Prod.fst h').symm]
    rfl
  | succ m ih =>
    intro off tl lens off' h
    unfold Packet.vbr_lens at h
    split at h
    · rw [Outcome.bind_eq_ok] at h
      obtain ⟨tail, -, h⟩ := h
      rw [Outcome.bind_eq_ok] at h
      obtain ⟨lc, -, h⟩ := h
      rw [Outcome.bind_eq_ok] at h
      obtain ⟨lo, hrec, h⟩ := h
      injection h with h'
      rw [show lens = lc.1 :: lo.1 from (congrArg Prod.fst h').symm]
      simp [ih _ _ lo.1 lo.2 hrec]
    · rename_i hcond
      have hm : m = 0 := by
        rcases Nat.eq_zero_or_pos m with h0 | h0
        · exact h0
        · exact absurd (Or.inr h0) hcond
      injection h with h'
      rw [show lens = [wsub (wsub (wsub data.length tl) off) pad]
          from (congrArg Prod.fst h').symm]
      simp [hm]

theorem take_frames_length (data : List Nat) :
    ∀ lens off fs off',
      Packet.take_frames data lens off = .ok (fs, off') → fs.length = lens.length := by
  intro lens
  induction lens with
  | nil =>
    intro off fs off' h
    unfold Packet.take_frames at h
    injection h with h'
    rw [show fs = ([] : List (List Nat)) from (congrArg Prod.fst h').symm]
    rfl
  | cons len rest ih =>
    intro off fs off' h
    unfold Packet.take_frames at h
    rw [Outcome.bind_eq_ok] at h
    obtain ⟨f, -, h⟩ := h
    rw [Outcome.bind_eq_ok] at h
    obtain ⟨fo, hrec, h⟩ := h
    injection h with h'
    rw [show fs = f :: fo.1 from (congrArg Prod.fst h').symm]
    simp [ih _ fo.1 fo.2 hrec]

theorem cbr_frames_length (data : List Nat) (len : Nat) :
    ∀ k i fs, Packet.cbr_frames data len k i = .ok fs → fs.length = k := by
  intro k
  induction k with
  | zero =>
    intro i fs h
    unfold Packet.cbr_frames at h
    injection h with h'
    rw [← h']
    rfl
  | succ m ih =>
    intro i fs h
    unfold Packet.cbr_frames at h
    rw [Outcome.bind_eq_ok] at h
    obtain ⟨f, -, h⟩ := h
    rw [Outcome.bind_eq_ok] at h
    obtain ⟨fs', hrec, h⟩ := h
    injection h with h'
    rw [← h']
    simp [ih _ fs' hrec]

theorem decode_code_0_frames {c : Config} {st sd : Bool} {d : List Nat} {p : Packet}
    {r : List Nat} (h : Packet.decode_code_0 c st sd d = .ok (p, r)) :
    p.frames.length = 1 := by
  unfold Packet.decode_code_0 at h
  rw [Outcome.bind_eq_ok] at h
  obtain ⟨fr, -, h⟩ := h
  rw [Outcome.bind_eq_ok] at h
  obtain ⟨f, -, h⟩ := h
  injection h with h'
  rw [show p = { config := c, stereo := st, frames := [f] } from (congrArg Prod.fst h').symm]
  rfl

theorem decode_code_1_frames {c : Config} {st sd : Bool} {d : List Nat} {p : Packet}
    {r : List Nat} (h : Packet.decode_code_1 c st sd d = .ok (p, r)) :
    p.frames.length = 2 := by
  unfold Packet.decode_code_1 at h
  rw [Outcome.bind_eq_ok] at h
  obtain ⟨fr, -, h⟩ := h
  rw [Outcome.bind_eq_ok] at h
  obtain ⟨d', -, h⟩ := h
  rw [Outcome.bind_eq_ok] at h
  obtain ⟨f1, -, h⟩ := h
  rw [Outcome.bind_eq_ok] at h
  obtain ⟨f2, -, h⟩ := h
  injection h with h'
  rw [show p = { config := c, stereo := st, frames := [f1, f2] }
      from (congrArg Prod.fst h').symm]
  rfl

theorem decode_code_2_frames {c : Config} {st sd : Bool} {d : List Nat} {p : Packet}
    {r : List Nat} (h : Packet.decode_code_2 c st sd d = .ok (p, r)) :
    p.frames.length = 2 := by
  unfold Packet.decode_code_2 at h
  rw [Outcome.bind_eq_ok] at h
  obtain ⟨lc1, -, h⟩ := h
  rw [Outcome.bind_eq_ok] at h
  obtain ⟨tail1, -, h⟩ := h
  rw [Outcome.bind_eq_ok] at h
  obtain ⟨fr, -, h⟩ := h
  rw [Outcome.bind_eq_ok] at h
  obtain ⟨d', -, h⟩ := h
  split at h
  · rw [Outcome.bind_eq_ok] at h
    obtain ⟨f1, -, h⟩ := h
    rw [Outcome.bind_eq_ok] at h
    obtain ⟨f2, -, h⟩ := h
    rw [Outcome.bind_eq_ok] at h
    obtain ⟨rem, -, h⟩ := h
    injection h with h'
    rw [show p = { config := c, stereo := st, frames := [f1, f2] }
        from (congrArg Prod.fst h').symm]
    rfl
  · split at h <;> simp at h

theorem decode_code_3_vbr_frames {c : Config} {st sd : Bool} {d : List Nat}
    {count pad : Nat} {p : Packet} {r : List Nat}
    (h : Packet.decode_code_3_vbr c st sd d count pad = .ok (p, r)) :
    p.frames.length = count := by
  unfold Packet.decode_code_3_vbr at h
  rw [Outcome.bind_eq_ok] at h
  obtain ⟨lo, hlo, h⟩ := h
  rw [Outcome.bind_eq_ok] at h
  obtain ⟨fo, hfo, h⟩ := h
  rw [Outcome.bind_eq_ok] at h
  obtain ⟨rem, -, h⟩ := h
  injection h with h'
  rw [show p = { config := c, stereo := st, frames := fo.1 }
      from (congrArg Prod.fst h').symm]
  show fo.1.length = count
  rw [take_frames_length d lo.1 lo.2 fo.1 fo.2 hfo]
  exact vbr_lens_length d sd pad count 0 0 lo.1 lo.2 hlo

theorem decode_code_3_cbr_frames {c : Config} {st sd : Bool} {d : List Nat}
    {count pad : Nat} {p : Packet} {r : List Nat}
    (h : Packet.decode_code_3_cbr c st sd d count pad = .ok (p, r)) :
    p.frames.length = count := by
  unfold Packet.decode_code_3_cbr at h
  rw [Outcome.bind_eq_ok] at h
  obtain ⟨lc, -, h⟩ := h
  rw [Outcome.bind_eq_ok] at h
  obtain ⟨d', -, h⟩ := h
  rw [Outcome.bind_eq_ok] at h
  obtain ⟨frames, hfr, h⟩ := h
  rw [Outcome.bind_eq_ok] at h
  obtain ⟨rem, -, h⟩ := h
  injection h with h'
  rw [show p = { config := c, stereo := st, frames := frames }
      from (congrArg Prod.fst h').symm]
  exact cbr_frames_length d' lc.1 count 0 frames hfr

theorem decode_code_3_frames {c : Config} {st sd : Bool} {data : List Nat} {p : Packet}
    {r : List Nat} (h : Packet.decode_code_3 c st sd data = .ok (p, r)) :
    ∃ fcb rest, data = fcb :: rest ∧ p.frames.length = fc_count fcb ∧
      1 ≤ fc_count fcb ∧ fc_count fcb ≤ 63 := by
  cases data with
  | nil => simp [Packet.decode_code_3] at h
  | cons fcb rest =>
    refine ⟨fcb, rest, rfl, ?_⟩
    simp only [Packet.decode_code_3] at h
    split at h
    · simp at h
    · split at h
      · simp at h
      · rename_i h0 _
        have hle : fc_count fcb ≤ 63 := Nat.le_of_lt_succ (Nat.mod_lt fcb (by omega))
        rw [Outcome.bind_eq_ok] at h
        obtain ⟨pd, -, h⟩ := h
        split at h
        · exact ⟨decode_code_3_vbr_frames h, by omega, hle⟩
        · exact ⟨decode_code_3_cbr_frames h, by omega, hle⟩

/-- C10: every successfully decoded packet (either framing mode) has exactly
the number of frame slices its layout code dictates — one for code 0, two
for codes 1 and 2, and for code 3 exactly the frame-count byte's declared
count, which lies between 1 and 63. -/
theorem c10_frame_count_per_layout (data : List Nat) (sd : Bool) (p : Packet)
    (rem : List Nat) (h : Packet.new_with_framing data sd = .ok (p, rem)) :
    ∃ toc rest, data = toc :: rest ∧
      (toc_code toc = 0 → p.frames.length = 1) ∧
      (toc_code toc = 1 → p.frames.length = 2) ∧
      (toc_code toc = 2 → p.frames.length = 2) ∧
      (toc_code toc = 3 → ∃ fcb rest2, rest = fcb :: rest2 ∧
        p.frames.length = fc_count fcb ∧ 1 ≤ fc_count fcb ∧ fc_count fcb ≤ 63) := by
  cases data with
  | nil => simp [Packet.new_with_framing] at h
  | cons toc rest =>
    refine ⟨toc, rest, rfl, ?_, ?_, ?_, ?_⟩ <;> intro hc <;>
      simp only [Packet.new_with_framing, hc] at h <;> norm_num at h
    · exact decode_code_0_frames h
    · exact decode_code_1_frames h
    · exact decode_code_2_frames h
    · obtain ⟨fcb, rest2, he, hrest⟩ := decode_code_3_frames h
      exact ⟨fcb, rest2, he, hrest⟩

/-- Witness for C10: the code-3 CBR packet `[0x03, 0x02, 0xAA, 0xBB]`. -/
theorem c10_witness :
    Packet.new_with_framing [3, 2, 170, 187] false =
      .ok ({ config := config_of 0, stereo := false, frames := [[170], [187]] }, []) ∧
    (∃ toc rest, ([3, 2, 170, 187] : List Nat) = toc :: rest ∧
      (toc_code toc = 0 →
        ({ config := config_of 0, stereo := false,
           frames := [[170], [187]] } : Packet).frames.length = 1) ∧
      (toc_code toc = 1 →
        ({ config := config_of 0, stereo := false,
           frames := [[170], [187]] } : Packet).frames.length = 2) ∧
      (toc_code toc = 2 →
        ({ config := config_of 0, stereo := false,
           frames := [[170], [187]] } : Packet).frames.length = 2) ∧
      (toc_code toc = 3 → ∃ fcb rest2, rest = fcb :: rest2 ∧
        ({ config := config_of 0, stereo := false,
           frames := [[170], [187]] } : Packet).frames.length = fc_count fcb ∧
        1 ≤ fc_count fcb ∧ fc_count fcb ≤ 63)) :=
  ⟨by decide, c10_frame_count_per_layout [3, 2, 170, 187] false _ [] (by decide)⟩

/-- C3: the claim says every frame of a successfully decoded packet is at most
1275 bytes long, including the implicitly-sized final frame of a code-3 VBR
packet.  The source checks the cap only in `Packet::framing`'s implicit
branch, never on the VBR final frame: the packet `[0x03, 0x81]` followed by
any 1276 payload bytes decodes successfully to a single 1276-byte frame. -/
theorem c3_vbr_final_frame_exceeds_limit (payload : List Nat) (h : payload.length = 1276) :
    Packet.new (3 :: 129 :: payload) =
      .ok { config := config_of 0, stereo := false, frames := [payload] } ∧
    1275 < payload.length := by
  refine ⟨?_, by omega⟩
  have h1 : Packet.vbr_lens payload false 0 1 0 0 = .ok ([1276], 0) := by
    unfold Packet.vbr_lens
    simp [wsub, h]
  have h2 : Packet.take_frames payload [1276] 0 = .ok ([payload], 1276) := by
    have hg : get_res_range payload 0 (0 + 1276) = .ok payload := by
      simp only [get_res_range, h, Nat.zero_add]
      rw [if_pos (by omega)]
      rw [← h, List.take_length, List.drop_zero]
    unfold Packet.take_frames
    rw [hg]
    simp [Outcome.bind, Packet.take_frames]
  have hg2 : get_res_from payload (1276 + 0) = .ok ([] : List Nat) := by
    simp only [get_res_from, Nat.add_zero]
    rw [if_pos (by omega)]
    rw [← h, List.drop_length]
  have h3 : Packet.decode_code_3_vbr (config_of 0) false false payload 1 0 =
      .ok ({ config := config_of 0, stereo := false, frames := [payload] }, []) := by
    unfold Packet.decode_code_3_vbr
    rw [h1]
    simp only [Outcome.bind]
    rw [h2]
    simp only [Outcome.bind]
    rw [hg2]
  have h4 : Packet.new_with_framing (3 :: 129 :: payload) false =
      .ok ({ config := config_of 0, stereo := false, frames := [payload] }, []) := by
    simp only [Packet.new_with_framing]
    norm_num [toc_code, toc_config, toc_stereo]
    simp only [Packet.decode_code_3]
    norm_num [fc_count, fc_padding, fc_vbr]
    exact h3
  unfold Packet.new
  rw [h4]

/-- Witness for C3: 1276 zero bytes. -/
theorem c3_witness :
    (List.replicate 1276 (0 : Nat)).length = 1276 ∧
    (Packet.new (3 :: 129 :: List.replicate 1276 0) =
      .ok { config := config_of 0, stereo := false, frames := [List.replicate 1276 0] } ∧
     1275 < (List.replicate 1276 (0 : Nat)).length) :=
  ⟨by simp, c3_vbr_final_frame_exceeds_limit (List.replicate 1276 0) (by simp)⟩

theorem slice_get_append (A B : List Nat) (a b : Nat) :
    slice_get (A ++ B) (A.length + a) (A.length + b) = slice_get B a b := by
  unfold slice_get
  by_cases hc : a ≤ b ∧ b ≤ B.length
  · rw [if_pos (by simp only [List.length_append]; omega), if_pos hc]
    rw [List.take_append b, List.drop_append a]
  · have hn : ¬(A.length + a ≤ A.length + b ∧ A.length + b ≤ (A ++ B).length) := by
      simp only [List.length_append]; omega
    rw [if_neg hn, if_neg hc]

theorem slice_get_middle (A B C : List Nat) :
    slice_get (A ++ B ++ C) A.length (A.length + B.length) = some B := by
  rw [List.append_assoc]
  have h := slice_get_append A (B ++ C) 0 B.length
  rw [Nat.add_zero] at h
  rw [h]
  unfold slice_get
  rw [if_pos (by simp only [List.length_append]; omega)]
  rw [List.drop_zero, List.take_left]

theorem le_u32_list_le4 (n : Nat) (h : n < 4294967296) : le_u32_list (le4 n) = n := by
  simp only [le4, le_u32_list, le_u32]
  omega

theorem c9_buf_length (p1 : List Nat) : (c9_buf p1).length = p1.length + 18 := by
  simp [c9_buf, le4, title_song]

theorem c9_buf_assoc (p1 : List Nat) :
    c9_buf p1 = (le4 p1.length ++ p1) ++ ([10, 0, 0, 0] ++ title_song) := rfl

theorem c9_prefix_length (p1 : List Nat) :
    (le4 p1.length ++ p1).length = 4 + p1.length := by
  simp [le4]
  omega

theorem c9_slice_hdr1 (p1 : List Nat) :
    slice_get (c9_buf p1) 0 4 = some (le4 p1.length) := by
  have h := slice_get_middle [] (le4 p1.length) (p1 ++ ([10, 0, 0, 0] ++ title_song))
  simp only [List.nil_append, List.length_nil, Nat.zero_add] at h
  have h4 : (le4 p1.length).length = 4 := by simp [le4]
  rw [h4] at h
  rw [← h]
  rw [c9_buf_assoc, List.append_assoc]

theorem c9_slice_body1 (p1 : List Nat) :
    slice_get (c9_buf p1) 4 (4 + p1.length) = some p1 := by
  have h := slice_get_middle (le4 p1.length) p1 ([10, 0, 0, 0] ++ title_song)
  have h4 : (le4 p1.length).length = 4 := by simp [le4]
  rw [h4] at h
  rw [c9_buf_assoc]
  exact h

theorem c9_slice_hdr2 (p1 : List Nat) :
    slice_get (c9_buf p1) (4 + p1.length) (4 + p1.length + 4) = some [10, 0, 0, 0] := by
  have h := slice_get_append (le4 p1.length ++ p1) ([10, 0, 0, 0] ++ title_song) 0 4
  rw [Nat.add_zero, c9_prefix_length] at h
  rw [c9_buf_assoc, h]
  decide

theorem c9_slice_body2 (p1 : List Nat) :
    slice_get (c9_buf p1) (4 + p1.length + 4) (4 + p1.length + 4 + 10) = some title_song := by
  have h := slice_get_append (le4 p1.length ++ p1) ([10, 0, 0, 0] ++ title_song) 4 14
  rw [c9_prefix_length] at h
  have he : 4 + p1.length + 4 + 10 = 4 + p1.length + 14 := by omega
  rw [he, c9_buf_assoc, h]
  decide

/-- C9: for every two-entry comment region whose first entry is malformed but
carries a correct length prefix and whose second entry is `"TITLE=Song"`,
the first iterator step yields no pair while advancing the cursor by the
declared length prefix, and the second step yields `("TITLE", "Song")`. -/
theorem c9_malformed_comment_skipped (p1 : List Nat) (h1 : parse_comment p1 = none)
    (h2 : p1.length < 4294967296) :
    Comments.next { comments := c9_buf p1, comments_num := 2, comments_read := 0, pos := 0 } =
      (none, { comments := c9_buf p1, comments_num := 2, comments_read := 1,
               pos := 4 + p1.length }) ∧
    Comments.next { comments := c9_buf p1, comments_num := 2, comments_read := 1,
                    pos := 4 + p1.length } =
      (some ([84, 73, 84, 76, 69], [83, 111, 110, 103]),
       { comments := c9_buf p1, comments_num := 2, comments_read := 2,
         pos := (c9_buf p1).length }) := by
  have hlen := c9_buf_length p1
  constructor
  · unfold Comments.next
    dsimp only
    rw [if_pos (by constructor <;> omega)]
    rw [show (0 : Nat) + 4 = 4 from rfl]
    rw [c9_slice_hdr1 p1]
    dsimp only
    rw [le_u32_list_le4 p1.length h2]
    rw [c9_slice_body1 p1]
    dsimp only
    rw [h1]
  · unfold Comments.next
    dsimp only
    rw [if_pos (by constructor <;> omega)]
    rw [c9_slice_hdr2 p1]
    dsimp only
    rw [show le_u32_list [10, 0, 0, 0] = 10 from rfl]
    rw [c9_slice_body2 p1]
    dsimp only
    rw [show parse_comment title_song =
        some ([84, 73, 84, 76, 69], [83, 111, 110, 103]) from by decide]
    dsimp only
    refine congrArg _ ?_
    have heq : 4 + p1.length + 4 + 10 = (c9_buf p1).length := by omega
    rw [heq]

/-- Witness for C9: the malformed first entry is the single byte 0xFF, which
is not valid UTF-8. -/
theorem c9_witness :
    parse_comment [255] = none ∧ ([255] : List Nat).length < 4294967296 ∧
    (Comments.next { comments := c9_buf [255], comments_num := 2, comments_read := 0,
                     pos := 0 } =
      (none, { comments := c9_buf [255], comments_num := 2, comments_read := 1,
               pos := 4 + ([255] : List Nat).length }) ∧
     Comments.next { comments := c9_buf [255], comments_num := 2, comments_read := 1,
                     pos := 4 + ([255] : List Nat).length } =
      (some ([84, 73, 84, 76, 69], [83, 111, 110, 103]),
       { comments := c9_buf [255], comments_num := 2, comments_read := 2,
         pos := (c9_buf [255]).length })) :=
  ⟨by decide, by decide, c9_malformed_comment_skipped [255] (by decide) (by decide)⟩
